import Mathlib

/-!
Shallow embedding of `src/model.cpp` (EddW1219/model): an epiworld-based
agent simulation with three epidemic states (Susceptible, Infected,
Infected-Hospitalized), a shared per-agent location store, an append-only
infection log, and a single sequentially consumed uniform random stream.

The random source is embedded as a function `f : Nat → ℚ` (the seeded
stream of uniform draws in `[0,1)`) together with a counter `ctr` in the
simulation state giving the position of the next draw; `m->runif()` at
position `c` is `f c` and bumps the counter.  Doubles are embedded as ℚ.
-/

namespace EpiModel

/-- The epidemic states, from `enum States` in `model.cpp`. -/
inductive States where
  | Susceptible
  | Infected
  | Infected_Hospitalized
deriving DecidableEq

/-- `Locations::Community = 0` from `enum Locations`. -/
def Community : Nat := 0

/-- `Locations::Hospital = 1` from `enum Locations`. -/
def Hospital : Nat := 1

/-- `Locations::Home = 2` from `enum Locations`. -/
def Home : Nat := 2

/-- One agent: its epidemic state, its attached pathogen (a reference,
embedded as an optional pathogen identifier; `nullptr` is `none`), and its
fixed neighbor list (agent ids in the order the contact graph exposes
them).  Agent ids are the indices into the population list, matching
epiworld where `get_id` is the index in the agents vector. -/
structure Agent where
  state : States
  virus : Option Nat
  neighbors : List Nat
deriving DecidableEq

instance : Inhabited Agent := ⟨⟨States.Susceptible, none, []⟩⟩

/-- The mutable simulation state threaded through the handlers: the
population (indexed by agent id), the shared location store
(`std::vector<size_t> locations`), the global `infection_log`
(`{Susceptible_ID, Infected_ID, Location}` tuples), and the position of
the next uniform draw in the random stream. -/
structure Sim where
  agents : List Agent
  locations : List Nat
  infection_log : List (Nat × Nat × Nat)
  ctr : Nat
deriving DecidableEq

/-- The named scalar parameters registered in `main` via `add_param`. -/
structure Params where
  prob_hospitalization : ℚ
  prob_recovery : ℚ
  discharge_infected : ℚ

/-- Agent lookup by id (`p->get_id()` is the index into the population). -/
def getAgent (s : Sim) (i : Nat) : Agent := s.agents.getD i default

/-- Location-store lookup (`locations[i]`). -/
def locGet (s : Sim) (i : Nat) : Nat := s.locations.getD i 0

/-- Modelled from the spec: epiworld's `Agent::set_virus(virus, model,
state)` is not under `src/`; per the spec it attaches the given pathogen
to the agent and moves it to the given state. -/
def set_virus (s : Sim) (i : Nat) (v : Nat) (st : States) : Sim :=
  { s with agents := s.agents.set i { getAgent s i with state := st, virus := some v } }

/-- Modelled from the spec: epiworld's `Agent::change_state(model, state)`
is not under `src/`; per the spec it moves the agent to the given state
leaving the pathogen attachment as it is. -/
def change_state (s : Sim) (i : Nat) (st : States) : Sim :=
  { s with agents := s.agents.set i { getAgent s i with state := st } }

/-- Modelled from the spec: epiworld's `Agent::rm_virus(model, state)` is
not under `src/`; per the spec it detaches the pathogen (sets it to null)
and moves the agent to the given state. -/
def rm_virus (s : Sim) (i : Nat) (st : States) : Sim :=
  { s with agents := s.agents.set i { getAgent s i with state := st, virus := none } }

/-- Modelled from the spec: epiworld's `roulette(probs, m)` is not under
`src/`; per spec §4.4 it draws one uniform value `u` in `[0,1)`, partitions
`[0,1)` into consecutive half-open intervals of widths `p_0, …, p_{k-1}`
with a trailing interval mapped to `-1`, and returns the index of the
interval containing `u`.  The recursion below realises exactly those
half-open intervals: `u` lands in interval `i` iff
`p_0 + … + p_{i-1} ≤ u < p_0 + … + p_i`. -/
def roulette (ps : List ℚ) (u : ℚ) : Int :=
  match ps with
  | [] => -1
  | p :: rest =>
    if u < p then 0
    else
      let r := roulette rest (u - p)
      if r = -1 then -1 else r + 1

/-- The location reassignment at the top of `update_susceptible`:
`locations[agent_id] = static_cast<size_t>(m->runif() * 3)`, consuming one
draw. -/
def susLocAssign (f : Nat → ℚ) (pid : Nat) (s : Sim) : Sim :=
  { s with locations := s.locations.set pid (Int.toNat ⌊f s.ctr * 3⌋),
           ctr := s.ctr + 1 }

/-- The neighbor loop of `update_susceptible`: walk the neighbor list in
order; for each neighbor in state Infected whose stored location equals
`loc` consume one uniform draw and compare it against the literal `0.3`;
on the first success stop and return that neighbor id together with the
next draw position.  Neighbors failing the state/location test consume no
draw. -/
def scanNeighbors (f : Nat → ℚ) (s : Sim) (loc : Nat) :
    List Nat → Nat → Option Nat × Nat
  | [], c => (none, c)
  | n :: ns, c =>
    if (getAgent s n).state = States.Infected ∧ locGet s n = loc then
      if f c < 3/10 then (some n, c + 1)
      else scanNeighbors f s loc ns (c + 1)
    else scanNeighbors f s loc ns c

/-- `update_susceptible` from `model.cpp`: bail out if the agent is no
longer Susceptible; otherwise reassign the location uniformly over
`{0,1,2}`, scan the neighbors for a first-success Bernoulli(0.3) infector,
and on infection append one record to the infection log and split between
Infected-Hospitalized and Infected on a fresh draw against
`"Prob hospitalization"`, attaching the infector's pathogen either way. -/
def update_susceptible (f : Nat → ℚ) (P : Params) (pid : Nat) (s : Sim) : Sim :=
  if (getAgent s pid).state = States.Susceptible then
    let new_location := Int.toNat ⌊f s.ctr * 3⌋
    let s1 := susLocAssign f pid s
    let r := scanNeighbors f s1 new_location (getAgent s1 pid).neighbors s1.ctr
    match r.1 with
    | none => { s1 with ctr := r.2 }
    | some j =>
      match (getAgent s1 j).virus with
      | none => { s1 with ctr := r.2 }
      | some v =>
        let s2 := { s1 with
                    ctr := r.2 + 1,
                    infection_log := s1.infection_log ++ [(pid, j, new_location)] }
        if P.prob_hospitalization > f r.2 then
          set_virus s2 pid v States.Infected_Hospitalized
        else
          set_virus s2 pid v States.Infected
  else s

/-- `update_infected` from `model.cpp`: reassign the location to Community
on a draw below `0.5` and to Home otherwise, then roulette over
`["Prob hospitalization", "Prob recovery"]`; outcome `0` hospitalizes
(keeping the pathogen), outcome `1` recovers (removing the pathogen),
anything else changes nothing. -/
def update_infected (f : Nat → ℚ) (P : Params) (pid : Nat) (s : Sim) : Sim :=
  let new_location := if f s.ctr < 1/2 then Community else Home
  let s1 : Sim := { s with locations := s.locations.set pid new_location,
                           ctr := s.ctr + 1 }
  let res := roulette [P.prob_hospitalization, P.prob_recovery] (f s1.ctr)
  let s2 : Sim := { s1 with ctr := s1.ctr + 1 }
  if res = 0 then change_state s2 pid States.Infected_Hospitalized
  else if res = 1 then rm_virus s2 pid States.Susceptible
  else s2

/-- `update_infected_hospitalized` from `model.cpp`: force the location to
Hospital (no draw), then recover if `"Prob recovery"` exceeds a fresh
draw; only otherwise consume a second draw and discharge to Infected if
`"Discharge infected"` exceeds it; else stay put. -/
def update_infected_hospitalized (f : Nat → ℚ) (P : Params) (pid : Nat) (s : Sim) : Sim :=
  let s1 : Sim := { s with locations := s.locations.set pid Hospital }
  if P.prob_recovery > f s1.ctr then
    rm_virus { s1 with ctr := s1.ctr + 1 } pid States.Susceptible
  else if P.discharge_infected > f (s1.ctr + 1) then
    change_state { s1 with ctr := s1.ctr + 2 } pid States.Infected
  else
    { s1 with ctr := s1.ctr + 2 }

/-- The driver's per-agent dispatch: each agent is updated once per step
by the handler registered for its current state (`add_state` in `main`). -/
def stepAgent (f : Nat → ℚ) (P : Params) (s : Sim) (i : Nat) : Sim :=
  match (getAgent s i).state with
  | States.Susceptible => update_susceptible f P i s
  | States.Infected => update_infected f P i s
  | States.Infected_Hospitalized => update_infected_hospitalized f P i s

/-- Run the per-agent updates over a list of agent ids, threading the
mutable simulation state left to right. -/
def stepAgents (f : Nat → ℚ) (P : Params) : Sim → List Nat → Sim
  | s, [] => s
  | s, i :: rest => stepAgents f P (stepAgent f P s i) rest

/-- Modelled from the spec: the tick scheduler (`model.run`) is not under
`src/`; per the spec one step updates every agent exactly once, in
ascending agent-id order, single-threadedly. -/
def step (f : Nat → ℚ) (P : Params) (s : Sim) : Sim :=
  stepAgents f P s (List.range s.agents.length)

/-- Modelled from the spec: the driver runs a fixed number of steps
(`model.run(100, 1231)`), each consuming the shared random stream in
sequence. -/
def run (f : Nat → ℚ) (P : Params) : Nat → Sim → Sim
  | 0, s => s
  | n + 1, s => run f P n (step f P s)

/-- Uniform draws live in `[0,1)`. -/
def validDraws (f : Nat → ℚ) : Prop := ∀ i, 0 ≤ f i ∧ f i < 1

/-! Concrete populations used to instantiate hypothesis-bearing theorems. -/

/-- A lone Infected agent carrying pathogen `0`, with no neighbors. -/
def agentI : Agent := ⟨States.Infected, some 0, []⟩

/-- A lone Susceptible agent with no neighbors. -/
def agentS : Agent := ⟨States.Susceptible, none, []⟩

/-- A one-agent simulation state holding just `agentI` at location `0`. -/
def simI : Sim := ⟨[agentI], [0], [], 0⟩

/-- A one-agent simulation state holding just `agentS` at location `0`. -/
def simS : Sim := ⟨[agentS], [0], [], 0⟩

/-- A Susceptible agent whose lone neighbor is agent `1`. -/
def agentS1 : Agent := ⟨States.Susceptible, none, [1]⟩

/-- Two agents: `0` Susceptible with neighbor `1`, `1` Infected carrying
pathogen `0`, both at location `0`. -/
def simSI : Sim := ⟨[agentS1, agentI], [0, 0], [], 0⟩

/-- A lone Infected-Hospitalized agent carrying pathogen `0`. -/
def agentH : Agent := ⟨States.Infected_Hospitalized, some 0, []⟩

/-- A one-agent simulation state holding just `agentH` at location `0`. -/
def simH : Sim := ⟨[agentH], [0], [], 0⟩

/-- A parameter assignment that recovers surely. -/
def recParams : Params := ⟨0, 1, 0⟩

/-- The claim C1 reading of the neighbor loop: keep only the eligible
neighbors (state Infected, stored location equal to the acting agent's
just-assigned one) in list order, give each one independent uniform draw
compared against `0.3`, and return the first success together with the
position after the draws consumed so far. -/
def firstSuccess (f : Nat → ℚ) : List Nat → Nat → Option Nat × Nat
  | [], c => (none, c)
  | j :: js, c => if f c < 3/10 then (some j, c + 1) else firstSuccess f js (c + 1)

/-- The pathogen-attachment invariant of claim C8: an agent carries no
pathogen exactly when it is Susceptible (out-of-range indices read the
default Susceptible agent, which satisfies it). -/
def pathogenInvariant (s : Sim) : Prop :=
  ∀ i, ((getAgent s i).virus = none ↔ (getAgent s i).state = States.Susceptible)

/-- The location-validity invariant of claim C2: every stored location
tag is one of the three `Locations` values. -/
def locationsValid (s : Sim) : Prop :=
  ∀ l ∈ s.locations, l = Community ∨ l = Hospital ∨ l = Home

/-- The constant-zero draw stream. -/
def zeroDraws : Nat → ℚ := fun _ => 0

/-- The parameter assignment from `main`:
`Prob hospitalization = 0.1`, `Prob recovery = 0`, `Discharge infected = 0.1`. -/
def mainParams : Params := ⟨1/10, 0, 1/10⟩

/-- A parameter assignment that hospitalizes surely and never recovers. -/
def hospParams : Params := ⟨1, 0, 0⟩

/-! Basic lemmas about the state-mutation primitives. -/

theorem getAgent_set_virus_self (s : Sim) (pid v : Nat) (st : States)
    (h : pid < s.agents.length) :
    getAgent (set_virus s pid v st) pid
      = { getAgent s pid with state := st, virus := some v } := by
  simp [getAgent, set_virus, List.getD, List.getElem?_set_self, h]

theorem getAgent_change_state_self (s : Sim) (pid : Nat) (st : States)
    (h : pid < s.agents.length) :
    getAgent (change_state s pid st) pid
      = { getAgent s pid with state := st } := by
  simp [getAgent, change_state, List.getD, List.getElem?_set_self, h]

theorem getAgent_rm_virus_self (s : Sim) (pid : Nat) (st : States)
    (h : pid < s.agents.length) :
    getAgent (rm_virus s pid st) pid
      = { getAgent s pid with state := st, virus := none } := by
  simp [getAgent, rm_virus, List.getD, List.getElem?_set_self, h]

/-! Branch equations for the Infected handler. -/

theorem update_infected_hosp_eq (f : Nat → ℚ) (P : Params) (pid : Nat) (s : Sim)
    (h : roulette [P.prob_hospitalization, P.prob_recovery] (f (s.ctr + 1)) = 0) :
    update_infected f P pid s
      = change_state
          { s with locations := s.locations.set pid (if f s.ctr < 1/2 then Community else Home),
                   ctr := s.ctr + 2 }
          pid States.Infected_Hospitalized := by
  simp only [update_infected]
  rw [if_pos h]

theorem update_infected_rec_eq (f : Nat → ℚ) (P : Params) (pid : Nat) (s : Sim)
    (h : roulette [P.prob_hospitalization, P.prob_recovery] (f (s.ctr + 1)) = 1) :
    update_infected f P pid s
      = rm_virus
          { s with locations := s.locations.set pid (if f s.ctr < 1/2 then Community else Home),
                   ctr := s.ctr + 2 }
          pid States.Susceptible := by
  have h0 : roulette [P.prob_hospitalization, P.prob_recovery] (f (s.ctr + 1)) ≠ 0 := by
    rw [h]; decide
  simp only [update_infected]
  rw [if_neg h0, if_pos h]

theorem update_infected_stay_eq (f : Nat → ℚ) (P : Params) (pid : Nat) (s : Sim)
    (h0 : roulette [P.prob_hospitalization, P.prob_recovery] (f (s.ctr + 1)) ≠ 0)
    (h1 : roulette [P.prob_hospitalization, P.prob_recovery] (f (s.ctr + 1)) ≠ 1) :
    update_infected f P pid s
      = { s with locations := s.locations.set pid (if f s.ctr < 1/2 then Community else Home),
                 ctr := s.ctr + 2 } := by
  simp only [update_infected]
  rw [if_neg h0, if_neg h1]

/-! Branch equations for the Infected-Hospitalized handler. -/

theorem update_ih_rec_eq (f : Nat → ℚ) (P : Params) (pid : Nat) (s : Sim)
    (h : P.prob_recovery > f s.ctr) :
    update_infected_hospitalized f P pid s
      = rm_virus { s with locations := s.locations.set pid Hospital, ctr := s.ctr + 1 }
          pid States.Susceptible := by
  simp only [update_infected_hospitalized]
  rw [if_pos h]

theorem update_ih_disch_eq (f : Nat → ℚ) (P : Params) (pid : Nat) (s : Sim)
    (h1 : ¬ P.prob_recovery > f s.ctr)
    (h2 : P.discharge_infected > f (s.ctr + 1)) :
    update_infected_hospitalized f P pid s
      = change_state { s with locations := s.locations.set pid Hospital, ctr := s.ctr + 2 }
          pid States.Infected := by
  simp only [update_infected_hospitalized]
  rw [if_neg h1, if_pos h2]

theorem update_ih_stay_eq (f : Nat → ℚ) (P : Params) (pid : Nat) (s : Sim)
    (h1 : ¬ P.prob_recovery > f s.ctr)
    (h2 : ¬ P.discharge_infected > f (s.ctr + 1)) :
    update_infected_hospitalized f P pid s
      = { s with locations := s.locations.set pid Hospital, ctr := s.ctr + 2 } := by
  simp only [update_infected_hospitalized]
  rw [if_neg h1, if_neg h2]

/-- The locations store after the Susceptible handler: for a Susceptible
agent it is exactly the old store with the agent's own entry overwritten
by `⌊u * 3⌋` for the first fresh draw `u`, whatever the infection outcome. -/
theorem update_susceptible_locations (f : Nat → ℚ) (P : Params) (pid : Nat) (s : Sim)
    (h : (getAgent s pid).state = States.Susceptible) :
    (update_susceptible f P pid s).locations
      = s.locations.set pid (Int.toNat ⌊f s.ctr * 3⌋) := by
  simp only [update_susceptible]
  rw [if_pos h]
  split
  · rfl
  · split
    · rfl
    · split
      · simp [set_virus, susLocAssign]
      · simp [set_virus, susLocAssign]

/-- The locations store after the Infected handler, whatever the roulette
outcome. -/
theorem update_infected_locations (f : Nat → ℚ) (P : Params) (pid : Nat) (s : Sim) :
    (update_infected f P pid s).locations
      = s.locations.set pid (if f s.ctr < 1/2 then Community else Home) := by
  simp only [update_infected]
  split
  · rfl
  · split <;> rfl

/-- The locations store after the Infected-Hospitalized handler, whatever
the recovery and discharge outcomes. -/
theorem update_ih_locations (f : Nat → ℚ) (P : Params) (pid : Nat) (s : Sim) :
    (update_infected_hospitalized f P pid s).locations
      = s.locations.set pid Hospital := by
  simp only [update_infected_hospitalized]
  split
  · rfl
  · split <;> rfl

/-- For a draw `u` in `[0,1)`, `⌊u * 3⌋` truncated to ℕ is `0`, `1` or `2`. -/
theorem floor_three_mem (u : ℚ) (h0 : 0 ≤ u) (h1 : u < 1) :
    Int.toNat ⌊u * 3⌋ = Community ∨ Int.toNat ⌊u * 3⌋ = Hospital
      ∨ Int.toNat ⌊u * 3⌋ = Home := by
  have hge : (0 : ℤ) ≤ ⌊u * 3⌋ := Int.floor_nonneg.2 (by nlinarith)
  have hlt : ⌊u * 3⌋ < 3 := Int.floor_lt.2 (by push_cast; nlinarith)
  simp only [Community, Hospital, Home]
  omega

/-- Claim C3: each handler reassigns the acting agent's location first
thing in its turn, regardless of whether a state transition follows: the
Susceptible handler stores `⌊u * 3⌋` for a fresh draw `u` (a value in
`{Community, Hospital, Home}` whenever `u ∈ [0,1)`), and the Infected
handler stores Community when a fresh draw is below `0.5` and Home
otherwise — never Hospital. -/
theorem location_reassignment (f : Nat → ℚ) (P : Params) (s : Sim) (pid : Nat)
    (hL : pid < s.locations.length) :
    ((getAgent s pid).state = States.Susceptible →
      locGet (update_susceptible f P pid s) pid = Int.toNat ⌊f s.ctr * 3⌋)
    ∧ locGet (update_infected f P pid s) pid
        = (if f s.ctr < 1/2 then Community else Home)
    ∧ (0 ≤ f s.ctr → f s.ctr < 1 →
        (Int.toNat ⌊f s.ctr * 3⌋ = Community ∨ Int.toNat ⌊f s.ctr * 3⌋ = Hospital
          ∨ Int.toNat ⌊f s.ctr * 3⌋ = Home)) := by
  refine ⟨fun h => ?_, ?_, floor_three_mem (f s.ctr)⟩
  · rw [locGet, update_susceptible_locations f P pid s h]
    simp [List.getD, List.getElem?_set_self, hL]
  · rw [locGet, update_infected_locations f P pid s]
    simp [List.getD, List.getElem?_set_self, hL]

/-- Witness for C3 at a concrete input: with the constant-zero stream the
Infected handler moves the lone infected agent to Community. -/
theorem location_reassignment_witness :
    locGet (update_infected zeroDraws mainParams 0 simI) 0 = Community := by
  have h := (location_reassignment zeroDraws mainParams simI 0 (by decide)).2.1
  rw [h]
  norm_num [zeroDraws]

/-- Claim C5: the Infected handler applies roulette selection over the
ordered pair `[Prob hospitalization, Prob recovery]`; outcome `0` moves
the agent to Infected-Hospitalized with the pathogen still attached,
outcome `1` moves it to Susceptible and detaches the pathogen, and
outcome `-1` leaves state and pathogen unchanged. -/
theorem infected_roulette_outcomes (f : Nat → ℚ) (P : Params) (s : Sim) (pid : Nat)
    (hA : pid < s.agents.length) :
    (roulette [P.prob_hospitalization, P.prob_recovery] (f (s.ctr + 1)) = 0 →
      getAgent (update_infected f P pid s) pid
        = { getAgent s pid with state := States.Infected_Hospitalized })
    ∧ (roulette [P.prob_hospitalization, P.prob_recovery] (f (s.ctr + 1)) = 1 →
      getAgent (update_infected f P pid s) pid
        = { getAgent s pid with state := States.Susceptible, virus := none })
    ∧ (roulette [P.prob_hospitalization, P.prob_recovery] (f (s.ctr + 1)) = -1 →
      (update_infected f P pid s).agents = s.agents) := by
  refine ⟨fun h0 => ?_, fun h1 => ?_, fun hm => ?_⟩
  · rw [update_infected_hosp_eq f P pid s h0,
      getAgent_change_state_self _ _ _ (by simpa using hA)]
    simp [getAgent]
  · rw [update_infected_rec_eq f P pid s h1,
      getAgent_rm_virus_self _ _ _ (by simpa using hA)]
    simp [getAgent]
  · rw [update_infected_stay_eq f P pid s (by rw [hm]; decide) (by rw [hm]; decide)]

/-- Witness for C5 at a concrete input: with sure hospitalization the
roulette outcome is `0` and the lone infected agent is hospitalized with
its pathogen kept. -/
theorem infected_roulette_outcomes_witness :
    getAgent (update_infected zeroDraws hospParams 0 simI) 0
      = { getAgent simI 0 with state := States.Infected_Hospitalized } :=
  (infected_roulette_outcomes zeroDraws hospParams simI 0 (by decide)).1
    (by norm_num [roulette, zeroDraws, hospParams])

/-- Claim C6: the Infected-Hospitalized handler forces the agent's
location to Hospital, then recovers (to Susceptible, pathogen detached)
if `Prob recovery` exceeds one fresh draw, consuming exactly one draw;
only otherwise it consumes a second fresh draw and discharges to Infected
(pathogen kept) if `Discharge infected` exceeds it; else the agent stays
put, two draws consumed. -/
theorem hospitalized_handler_cases (f : Nat → ℚ) (P : Params) (s : Sim) (pid : Nat)
    (hA : pid < s.agents.length) (hL : pid < s.locations.length) :
    locGet (update_infected_hospitalized f P pid s) pid = Hospital
    ∧ (P.prob_recovery > f s.ctr →
        getAgent (update_infected_hospitalized f P pid s) pid
          = { getAgent s pid with state := States.Susceptible, virus := none }
        ∧ (update_infected_hospitalized f P pid s).ctr = s.ctr + 1)
    ∧ (¬ P.prob_recovery > f s.ctr → P.discharge_infected > f (s.ctr + 1) →
        getAgent (update_infected_hospitalized f P pid s) pid
          = { getAgent s pid with state := States.Infected }
        ∧ (update_infected_hospitalized f P pid s).ctr = s.ctr + 2)
    ∧ (¬ P.prob_recovery > f s.ctr → ¬ P.discharge_infected > f (s.ctr + 1) →
        (update_infected_hospitalized f P pid s).agents = s.agents
        ∧ (update_infected_hospitalized f P pid s).ctr = s.ctr + 2) := by
  refine ⟨?_, fun h => ?_, fun h1 h2 => ?_, fun h1 h2 => ?_⟩
  · rw [locGet, update_ih_locations f P pid s]
    simp [List.getD, List.getElem?_set_self, hL]
  · rw [update_ih_rec_eq f P pid s h]
    exact ⟨by rw [getAgent_rm_virus_self _ _ _ (by simpa using hA)]; simp [getAgent],
      by simp [rm_virus]⟩
  · rw [update_ih_disch_eq f P pid s h1 h2]
    exact ⟨by rw [getAgent_change_state_self _ _ _ (by simpa using hA)]; simp [getAgent],
      by simp [change_state]⟩
  · rw [update_ih_stay_eq f P pid s h1 h2]
    exact ⟨rfl, rfl⟩

/-- Witness for C6 at a concrete input: with sure recovery the lone
hospitalized agent recovers, one draw consumed. -/
theorem hospitalized_handler_cases_witness :
    getAgent (update_infected_hospitalized zeroDraws recParams 0 simH) 0
      = { getAgent simH 0 with state := States.Susceptible, virus := none }
    ∧ (update_infected_hospitalized zeroDraws recParams 0 simH).ctr = 1 :=
  (hospitalized_handler_cases zeroDraws recParams simH 0 (by decide) (by decide)).2.1
    (by norm_num [recParams, zeroDraws])

/-- Claim C7: when `Prob recovery` equals `1.0`, every invocation of the
Infected-Hospitalized handler recovers the agent — it becomes Susceptible
with the pathogen detached — because every uniform draw is below `1` and
the comparison is strict. -/
theorem recovery_one_always_recovers (f : Nat → ℚ) (P : Params) (s : Sim) (pid : Nat)
    (hpr : P.prob_recovery = 1) (hf : validDraws f) (hA : pid < s.agents.length) :
    getAgent (update_infected_hospitalized f P pid s) pid
      = { getAgent s pid with state := States.Susceptible, virus := none } := by
  have h : P.prob_recovery > f s.ctr := by rw [hpr]; exact (hf s.ctr).2
  rw [update_ih_rec_eq f P pid s h,
    getAgent_rm_virus_self _ _ _ (by simpa using hA)]
  simp [getAgent]

/-- Witness for C7 at a concrete input. -/
theorem recovery_one_always_recovers_witness :
    getAgent (update_infected_hospitalized zeroDraws recParams 0 simH) 0
      = { getAgent simH 0 with state := States.Susceptible, virus := none } :=
  recovery_one_always_recovers zeroDraws recParams simH 0 rfl
    (fun i => ⟨le_refl 0, by norm_num [zeroDraws]⟩) (by decide)

/-! The Susceptible handler: scan characterization (C1) and infection
outcome (C4). -/

theorem getAgent_susLocAssign (f : Nat → ℚ) (pid : Nat) (s : Sim) (i : Nat) :
    getAgent (susLocAssign f pid s) i = getAgent s i := rfl

theorem susLocAssign_ctr (f : Nat → ℚ) (pid : Nat) (s : Sim) :
    (susLocAssign f pid s).ctr = s.ctr + 1 := rfl

/-- Claim C1: the Susceptible handler's neighbor loop is exactly a
first-success Bernoulli(0.3) scan over the eligible neighbors in list
order — one fresh uniform draw per neighbor that is Infected and shares
the just-assigned location, stopping at the first draw below `0.3`, whose
neighbor is the infector — and when no draw succeeds the handler leaves
the infection log and every agent (state and pathogen) unchanged. -/
theorem scan_is_first_success (f : Nat → ℚ) (P : Params) (s : Sim) (loc pid : Nat)
    (hst : (getAgent s pid).state = States.Susceptible) :
    (∀ ns c, scanNeighbors f s loc ns c
        = firstSuccess f (ns.filter (fun j =>
            decide ((getAgent s j).state = States.Infected)
              && decide (locGet s j = loc))) c)
    ∧ (∀ c2, scanNeighbors f (susLocAssign f pid s) (Int.toNat ⌊f s.ctr * 3⌋)
          (getAgent s pid).neighbors (s.ctr + 1) = (none, c2) →
        (update_susceptible f P pid s).infection_log = s.infection_log
        ∧ (update_susceptible f P pid s).agents = s.agents) := by
  constructor
  · intro ns
    induction ns with
    | nil => intro c; simp [scanNeighbors, firstSuccess]
    | cons n ns ih =>
      intro c
      simp only [scanNeighbors, List.filter_cons]
      by_cases hc : (getAgent s n).state = States.Infected ∧ locGet s n = loc
      · rw [if_pos hc]
        have hb : (decide ((getAgent s n).state = States.Infected)
            && decide (locGet s n = loc)) = true := by
          simp [hc.1, hc.2]
        rw [hb]
        simp only [firstSuccess]
        by_cases hd : f c < 3/10
        · rw [if_pos hd, if_pos hd]
        · rw [if_neg hd, if_neg hd, ih]
      · rw [if_neg hc]
        have hb : (decide ((getAgent s n).state = States.Infected)
            && decide (locGet s n = loc)) = false := by
          rcases Decidable.not_and_iff_or_not.1 hc with h | h <;> simp [h]
        rw [hb]
        exact ih c
  · intro c2 hscan
    simp only [update_susceptible, getAgent_susLocAssign, susLocAssign_ctr]
    rw [if_pos hst, hscan]
    exact ⟨rfl, rfl⟩

/-- Witness for C1 at a concrete input: the lone susceptible agent has no
neighbors, so the scan finds nothing and nothing changes. -/
theorem scan_is_first_success_witness :
    (update_susceptible zeroDraws mainParams 0 simS).infection_log = simS.infection_log
    ∧ (update_susceptible zeroDraws mainParams 0 simS).agents = simS.agents :=
  (scan_is_first_success zeroDraws mainParams simS 0 0 (by decide)).2 1
    (by simp [scanNeighbors, simS, agentS, getAgent])

/-- Claim C4: when the scan finds an infector `j` carrying pathogen `v`,
the handler appends exactly the record `(agent, j, location)` to the
infection log and then compares `Prob hospitalization` against one fresh
uniform draw: strictly greater moves the agent to Infected-Hospitalized,
otherwise to Infected, in both cases attaching `v`; when the scan finds
nobody, the log and all agents (state and pathogen) are unchanged. -/
theorem infection_log_and_hospitalization (f : Nat → ℚ) (P : Params) (s : Sim)
    (pid j v c2 : Nat)
    (hst : (getAgent s pid).state = States.Susceptible)
    (hA : pid < s.agents.length) :
    (scanNeighbors f (susLocAssign f pid s) (Int.toNat ⌊f s.ctr * 3⌋)
        (getAgent s pid).neighbors (s.ctr + 1) = (some j, c2) →
      (getAgent s j).virus = some v →
      (update_susceptible f P pid s).infection_log
          = s.infection_log ++ [(pid, j, Int.toNat ⌊f s.ctr * 3⌋)]
      ∧ getAgent (update_susceptible f P pid s) pid
          = { getAgent s pid with
              state := if P.prob_hospitalization > f c2
                then States.Infected_Hospitalized else States.Infected,
              virus := some v })
    ∧ (scanNeighbors f (susLocAssign f pid s) (Int.toNat ⌊f s.ctr * 3⌋)
        (getAgent s pid).neighbors (s.ctr + 1) = (none, c2) →
      (update_susceptible f P pid s).infection_log = s.infection_log
      ∧ (update_susceptible f P pid s).agents = s.agents) := by
  constructor
  · intro hscan hv
    simp only [update_susceptible, getAgent_susLocAssign, susLocAssign_ctr]
    rw [if_pos hst, hscan]
    simp only [hv]
    by_cases hq : P.prob_hospitalization > f c2
    · rw [if_pos hq, if_pos hq]
      refine ⟨by simp [set_virus, susLocAssign], ?_⟩
      rw [getAgent_set_virus_self _ _ _ _ (by simpa [susLocAssign] using hA)]
      rfl
    · rw [if_neg hq, if_neg hq]
      refine ⟨by simp [set_virus, susLocAssign], ?_⟩
      rw [getAgent_set_virus_self _ _ _ _ (by simpa [susLocAssign] using hA)]
      rfl
  · intro hscan
    simp only [update_susceptible, getAgent_susLocAssign, susLocAssign_ctr]
    rw [if_pos hst, hscan]
    exact ⟨rfl, rfl⟩

/-- Witness for C4 at a concrete input: a susceptible agent whose lone
neighbor is infected at the same location, with the constant-zero stream
(so the Bernoulli draw `0 < 0.3` succeeds) and `Prob hospitalization`
`0.1 > 0`: one log record is appended and the agent is hospitalized with
the neighbor's pathogen. -/
theorem infection_log_and_hospitalization_witness :
    (update_susceptible zeroDraws mainParams 0 simSI).infection_log
        = [(0, 1, Int.toNat ⌊zeroDraws 0 * 3⌋)]
    ∧ getAgent (update_susceptible zeroDraws mainParams 0 simSI) 0
        = { getAgent simSI 0 with
            state := States.Infected_Hospitalized, virus := some 0 } := by
  have h := (infection_log_and_hospitalization zeroDraws mainParams simSI 0 1 0 2
      (by decide) (by decide)).1
    (by norm_num [scanNeighbors, simSI, susLocAssign, getAgent, locGet,
      agentI, agentS1, zeroDraws])
    (by decide)
  refine ⟨by rw [h.1]; rfl, ?_⟩
  rw [h.2, if_pos (by norm_num [mainParams, zeroDraws])]

theorem update_susceptible_guard (f : Nat → ℚ) (P : Params) (pid : Nat) (s : Sim)
    (h : (getAgent s pid).state ≠ States.Susceptible) :
    update_susceptible f P pid s = s := by
  simp only [update_susceptible]
  rw [if_neg h]

/-- Claim C10: invoking the Susceptible handler on an agent that is not
Susceptible is a complete no-op — the returned simulation state is the
input one, so the location store, the infection log, the agent states and
pathogen attachments are unchanged and the draw counter has not moved. -/
theorem susceptible_handler_guard_noop (f : Nat → ℚ) (P : Params) (pid : Nat) (s : Sim)
    (h : (getAgent s pid).state ≠ States.Susceptible) :
    update_susceptible f P pid s = s :=
  update_susceptible_guard f P pid s h

/-- Witness for C10 at a concrete input: the handler on a lone Infected
agent returns the state untouched. -/
theorem susceptible_handler_guard_noop_witness :
    update_susceptible zeroDraws mainParams 0 simI = simI :=
  susceptible_handler_guard_noop zeroDraws mainParams 0 simI (by decide)

/-- Claim C9: the whole simulation is a deterministic function of the
configuration and the seeded draw stream — two runs with the same
population, parameters and pointwise-equal uniform streams return equal
final simulation states, in particular identical infection logs and
identical per-agent states and locations. -/
theorem run_deterministic (f g : Nat → ℚ) (P : Params) (n : Nat) (s : Sim)
    (h : ∀ i, f i = g i) :
    run f P n s = run g P n s := by
  have hfg : f = g := funext h
  rw [hfg]

/-- Witness for C9 at a concrete input: two syntactically different but
pointwise-equal streams drive one step of the one-agent simulation to the
same result. -/
theorem run_deterministic_witness :
    run zeroDraws mainParams 1 simI = run (fun i => 0 * (i : ℚ)) mainParams 1 simI :=
  run_deterministic zeroDraws (fun i => 0 * (i : ℚ)) mainParams 1 simI
    (fun i => (zero_mul (i : ℚ)).symm)

/-! Frame lemmas: a handler acting for agent `pid` never touches another
agent's record or location entry. -/

theorem getAgent_set_virus_ne (s : Sim) (pid v : Nat) (st : States) (i : Nat)
    (h : i ≠ pid) : getAgent (set_virus s pid v st) i = getAgent s i := by
  simp [getAgent, set_virus, List.getD, List.getElem?_set_ne (Ne.symm h)]

theorem getAgent_change_state_ne (s : Sim) (pid : Nat) (st : States) (i : Nat)
    (h : i ≠ pid) : getAgent (change_state s pid st) i = getAgent s i := by
  simp [getAgent, change_state, List.getD, List.getElem?_set_ne (Ne.symm h)]

theorem getAgent_rm_virus_ne (s : Sim) (pid : Nat) (st : States) (i : Nat)
    (h : i ≠ pid) : getAgent (rm_virus s pid st) i = getAgent s i := by
  simp [getAgent, rm_virus, List.getD, List.getElem?_set_ne (Ne.symm h)]

theorem getAgent_update_susceptible_ne (f : Nat → ℚ) (P : Params) (pid : Nat)
    (s : Sim) (i : Nat) (h : i ≠ pid) :
    getAgent (update_susceptible f P pid s) i = getAgent s i := by
  by_cases hst : (getAgent s pid).state = States.Susceptible
  · simp only [update_susceptible]
    rw [if_pos hst]
    split
    · rfl
    · split
      · rfl
      · split
        · rw [getAgent_set_virus_ne _ _ _ _ _ h]; rfl
        · rw [getAgent_set_virus_ne _ _ _ _ _ h]; rfl
  · rw [update_susceptible_guard f P pid s hst]

theorem getAgent_update_infected_ne (f : Nat → ℚ) (P : Params) (pid : Nat)
    (s : Sim) (i : Nat) (h : i ≠ pid) :
    getAgent (update_infected f P pid s) i = getAgent s i := by
  simp only [update_infected]
  split
  · rw [getAgent_change_state_ne _ _ _ _ h]; rfl
  · split
    · rw [getAgent_rm_virus_ne _ _ _ _ h]; rfl
    · rfl

theorem getAgent_update_ih_ne (f : Nat → ℚ) (P : Params) (pid : Nat)
    (s : Sim) (i : Nat) (h : i ≠ pid) :
    getAgent (update_infected_hospitalized f P pid s) i = getAgent s i := by
  simp only [update_infected_hospitalized]
  split
  · rw [getAgent_rm_virus_ne _ _ _ _ h]; rfl
  · split
    · rw [getAgent_change_state_ne _ _ _ _ h]; rfl
    · rfl

theorem getAgent_stepAgent_ne (f : Nat → ℚ) (P : Params) (s : Sim) (j i : Nat)
    (h : i ≠ j) : getAgent (stepAgent f P s j) i = getAgent s i := by
  unfold stepAgent
  cases (getAgent s j).state
  · exact getAgent_update_susceptible_ne f P j s i h
  · exact getAgent_update_infected_ne f P j s i h
  · exact getAgent_update_ih_ne f P j s i h

theorem locations_update_susceptible (f : Nat → ℚ) (P : Params) (pid : Nat) (s : Sim) :
    (update_susceptible f P pid s).locations = s.locations
    ∨ (update_susceptible f P pid s).locations
        = s.locations.set pid (Int.toNat ⌊f s.ctr * 3⌋) := by
  by_cases hst : (getAgent s pid).state = States.Susceptible
  · exact Or.inr (update_susceptible_locations f P pid s hst)
  · exact Or.inl (by rw [update_susceptible_guard f P pid s hst])

theorem locGet_stepAgent_ne (f : Nat → ℚ) (P : Params) (s : Sim) (j i : Nat)
    (h : i ≠ j) : locGet (stepAgent f P s j) i = locGet s i := by
  unfold stepAgent
  cases (getAgent s j).state
  · rcases locations_update_susceptible f P j s with hl | hl <;>
      simp [locGet, hl, List.getD, List.getElem?_set_ne (Ne.symm h)]
  · simp [locGet, update_infected_locations, List.getD, List.getElem?_set_ne (Ne.symm h)]
  · simp [locGet, update_ih_locations, List.getD, List.getElem?_set_ne (Ne.symm h)]

/-! Length lemmas: handlers never change the population size or the
location-store size. -/

theorem agents_length_update_susceptible (f : Nat → ℚ) (P : Params) (pid : Nat) (s : Sim) :
    (update_susceptible f P pid s).agents.length = s.agents.length := by
  by_cases hst : (getAgent s pid).state = States.Susceptible
  · simp only [update_susceptible]
    rw [if_pos hst]
    split
    · rfl
    · split
      · rfl
      · split
        · simp [set_virus, susLocAssign]
        · simp [set_virus, susLocAssign]
  · rw [update_susceptible_guard f P pid s hst]

theorem agents_length_update_infected (f : Nat → ℚ) (P : Params) (pid : Nat) (s : Sim) :
    (update_infected f P pid s).agents.length = s.agents.length := by
  simp only [update_infected]
  split
  · simp [change_state]
  · split
    · simp [rm_virus]
    · rfl

theorem agents_length_update_ih (f : Nat → ℚ) (P : Params) (pid : Nat) (s : Sim) :
    (update_infected_hospitalized f P pid s).agents.length = s.agents.length := by
  simp only [update_infected_hospitalized]
  split
  · simp [rm_virus]
  · split
    · simp [change_state]
    · rfl

theorem agents_length_stepAgent (f : Nat → ℚ) (P : Params) (s : Sim) (i : Nat) :
    (stepAgent f P s i).agents.length = s.agents.length := by
  unfold stepAgent
  cases (getAgent s i).state
  · exact agents_length_update_susceptible f P i s
  · exact agents_length_update_infected f P i s
  · exact agents_length_update_ih f P i s

theorem locations_length_stepAgent (f : Nat → ℚ) (P : Params) (s : Sim) (i : Nat) :
    (stepAgent f P s i).locations.length = s.locations.length := by
  unfold stepAgent
  cases (getAgent s i).state
  · rcases locations_update_susceptible f P i s with hl | hl <;> simp [hl]
  · simp [update_infected_locations]
  · simp [update_ih_locations]

/-! Step-list lemmas. -/

theorem getAgent_stepAgents_not_mem (f : Nat → ℚ) (P : Params) (i : Nat) :
    ∀ l : List Nat, ∀ s : Sim, i ∉ l →
      getAgent (stepAgents f P s l) i = getAgent s i := by
  intro l
  induction l with
  | nil => intro s _; rfl
  | cons j rest ih =>
    intro s hmem
    have hij : i ≠ j := fun hc => hmem (hc ▸ List.mem_cons_self j rest)
    have hrest : i ∉ rest := fun hc => hmem (List.mem_cons_of_mem j hc)
    simp only [stepAgents]
    rw [ih _ hrest, getAgent_stepAgent_ne f P s j i hij]

theorem locGet_stepAgents_not_mem (f : Nat → ℚ) (P : Params) (i : Nat) :
    ∀ l : List Nat, ∀ s : Sim, i ∉ l →
      locGet (stepAgents f P s l) i = locGet s i := by
  intro l
  induction l with
  | nil => intro s _; rfl
  | cons j rest ih =>
    intro s hmem
    have hij : i ≠ j := fun hc => hmem (hc ▸ List.mem_cons_self j rest)
    have hrest : i ∉ rest := fun hc => hmem (List.mem_cons_of_mem j hc)
    simp only [stepAgents]
    rw [ih _ hrest, locGet_stepAgent_ne f P s j i hij]



/-! Pathogen-attachment invariant (claim C8). -/

theorem pathogenInvariant_set (s : Sim) (pid : Nat) (a : Agent)
    (hinv : pathogenInvariant s)
    (ha : a.virus = none ↔ a.state = States.Susceptible) :
    pathogenInvariant { s with agents := s.agents.set pid a } := by
  intro i
  by_cases hip : i = pid
  · subst hip
    by_cases hA : i < s.agents.length
    · have hg : getAgent { s with agents := s.agents.set i a } i = a := by
        simp [getAgent, List.getD, List.getElem?_set_self, hA]
      rw [hg]
      exact ha
    · have hs : s.agents.set i a = s.agents :=
        List.set_eq_of_length_le (le_of_not_lt hA)
      rw [hs]
      exact hinv i
  · have hg : getAgent { s with agents := s.agents.set pid a } i = getAgent s i := by
      simp [getAgent, List.getD, List.getElem?_set_ne (Ne.symm hip)]
    rw [hg]
    exact hinv i

theorem pathogenInvariant_update_susceptible (f : Nat → ℚ) (P : Params)
    (pid : Nat) (s : Sim) (hinv : pathogenInvariant s) :
    pathogenInvariant (update_susceptible f P pid s) := by
  by_cases hst : (getAgent s pid).state = States.Susceptible
  · simp only [update_susceptible]
    rw [if_pos hst]
    split
    · exact hinv
    · split
      · exact hinv
      · split
        · simp only [set_virus]
          exact pathogenInvariant_set _ _ _ hinv (by simp)
        · simp only [set_virus]
          exact pathogenInvariant_set _ _ _ hinv (by simp)
  · rw [update_susceptible_guard f P pid s hst]
    exact hinv

theorem pathogenInvariant_update_infected (f : Nat → ℚ) (P : Params)
    (pid : Nat) (s : Sim)
    (hst : (getAgent s pid).state ≠ States.Susceptible)
    (hinv : pathogenInvariant s) :
    pathogenInvariant (update_infected f P pid s) := by
  simp only [update_infected]
  split
  · simp only [change_state]
    refine pathogenInvariant_set _ _ _ hinv (iff_of_false ?_ ?_)
    · intro hv
      exact hst ((hinv pid).1 hv)
    · intro hsu
      exact States.noConfusion hsu
  · split
    · simp only [rm_virus]
      exact pathogenInvariant_set _ _ _ hinv (by simp)
    · exact hinv

theorem pathogenInvariant_update_ih (f : Nat → ℚ) (P : Params)
    (pid : Nat) (s : Sim)
    (hst : (getAgent s pid).state ≠ States.Susceptible)
    (hinv : pathogenInvariant s) :
    pathogenInvariant (update_infected_hospitalized f P pid s) := by
  simp only [update_infected_hospitalized]
  split
  · simp only [rm_virus]
    exact pathogenInvariant_set _ _ _ hinv (by simp)
  · split
    · simp only [change_state]
      refine pathogenInvariant_set _ _ _ hinv (iff_of_false ?_ ?_)
      · intro hv
        exact hst ((hinv pid).1 hv)
      · intro hsu
        exact States.noConfusion hsu
    · exact hinv

theorem pathogenInvariant_stepAgent (f : Nat → ℚ) (P : Params) (s : Sim)
    (i : Nat) (hinv : pathogenInvariant s) :
    pathogenInvariant (stepAgent f P s i) := by
  unfold stepAgent
  cases hstate : (getAgent s i).state
  · exact pathogenInvariant_update_susceptible f P i s hinv
  · exact pathogenInvariant_update_infected f P i s (by simp [hstate]) hinv
  · exact pathogenInvariant_update_ih f P i s (by simp [hstate]) hinv

theorem pathogenInvariant_stepAgents (f : Nat → ℚ) (P : Params) :
    ∀ l : List Nat, ∀ s : Sim, pathogenInvariant s →
      pathogenInvariant (stepAgents f P s l) := by
  intro l
  induction l with
  | nil => intro s hinv; exact hinv
  | cons j rest ih =>
    intro s hinv
    simp only [stepAgents]
    exact ih _ (pathogenInvariant_stepAgent f P s j hinv)

theorem pathogenInvariant_run (f : Nat → ℚ) (P : Params) :
    ∀ n : Nat, ∀ s : Sim, pathogenInvariant s →
      pathogenInvariant (run f P n s) := by
  intro n
  induction n with
  | zero => intro s hinv; exact hinv
  | succ n ih =>
    intro s hinv
    simp only [run]
    exact ih _ (pathogenInvariant_stepAgents f P _ s hinv)

/-- Claim C8: if every agent carries a pathogen exactly when it is not
Susceptible, this stays true after any single handler invocation and
after any number of steps of the run: transitions into Infected or
Infected-Hospitalized always attach a pathogen, transitions to
Susceptible leave none, and a Susceptible agent never carries one. -/
theorem pathogen_attachment_invariant (f : Nat → ℚ) (P : Params) (s : Sim)
    (hinv : pathogenInvariant s) :
    (∀ i, pathogenInvariant (stepAgent f P s i))
    ∧ (∀ n, pathogenInvariant (run f P n s)) :=
  ⟨fun i => pathogenInvariant_stepAgent f P s i hinv,
   fun n => pathogenInvariant_run f P n s hinv⟩

/-- Witness for C8 at a concrete input: the two-agent population (one
Susceptible without pathogen, one Infected with one) keeps the invariant
through a full step. -/
theorem pathogen_attachment_invariant_witness :
    pathogenInvariant (run zeroDraws mainParams 1 simSI) :=
  (pathogen_attachment_invariant zeroDraws mainParams simSI
    (by
      intro i
      match i with
      | 0 => decide
      | 1 => decide
      | n + 2 =>
        have hg : getAgent simSI (n + 2) = default := by
          simp [getAgent, simSI, List.getD]
        rw [hg]
        decide)).2 1

/-! Location invariant (claim C2). -/

theorem locationsValid_stepAgent (f : Nat → ℚ) (P : Params) (s : Sim) (i : Nat)
    (hf : validDraws f) (hv : locationsValid s) :
    locationsValid (stepAgent f P s i) := by
  unfold stepAgent
  cases (getAgent s i).state
  · intro l hm
    rcases locations_update_susceptible f P i s with hl | hl
    · rw [hl] at hm
      exact hv l hm
    · rw [hl] at hm
      rcases List.mem_or_eq_of_mem_set hm with hm2 | hm2
      · exact hv l hm2
      · rw [hm2]
        exact floor_three_mem _ (hf s.ctr).1 (hf s.ctr).2
  · intro l hm
    rw [update_infected_locations] at hm
    rcases List.mem_or_eq_of_mem_set hm with hm2 | hm2
    · exact hv l hm2
    · rw [hm2]
      by_cases hc : f s.ctr < 1/2
      · rw [if_pos hc]
        exact Or.inl rfl
      · rw [if_neg hc]
        exact Or.inr (Or.inr rfl)
  · intro l hm
    rw [update_ih_locations] at hm
    rcases List.mem_or_eq_of_mem_set hm with hm2 | hm2
    · exact hv l hm2
    · rw [hm2]
      exact Or.inr (Or.inl rfl)

theorem locationsValid_stepAgents (f : Nat → ℚ) (P : Params) :
    ∀ l : List Nat, ∀ s : Sim, validDraws f → locationsValid s →
      locationsValid (stepAgents f P s l) := by
  intro l
  induction l with
  | nil => intro s _ hv; exact hv
  | cons j rest ih =>
    intro s hf hv
    simp only [stepAgents]
    exact ih _ hf (locationsValid_stepAgent f P s j hf hv)

theorem locGet_update_ih_self (f : Nat → ℚ) (P : Params) (pid : Nat) (s : Sim)
    (hL : pid < s.locations.length) :
    locGet (update_infected_hospitalized f P pid s) pid = Hospital := by
  rw [locGet, update_ih_locations]
  simp [List.getD, List.getElem?_set_self, hL]

theorem stepAgents_hospitalized_loc (f : Nat → ℚ) (P : Params) (i : Nat) :
    ∀ l : List Nat, ∀ s : Sim, l.Nodup → i ∈ l →
      (getAgent s i).state = States.Infected_Hospitalized →
      i < s.locations.length →
      locGet (stepAgents f P s l) i = Hospital := by
  intro l
  induction l with
  | nil => intro s _ hmem; exact absurd hmem (List.not_mem_nil i)
  | cons j rest ih =>
    intro s hnd hmem hst hL
    simp only [stepAgents]
    by_cases hij : i = j
    · subst hij
      have hstep : stepAgent f P s i = update_infected_hospitalized f P i s := by
        unfold stepAgent
        rw [hst]
      have hni : i ∉ rest := (List.nodup_cons.1 hnd).1
      rw [locGet_stepAgents_not_mem f P i rest _ hni, hstep]
      exact locGet_update_ih_self f P i s hL
    · have h1 : getAgent (stepAgent f P s j) i = getAgent s i :=
        getAgent_stepAgent_ne f P s j i hij
      have h2 : i < (stepAgent f P s j).locations.length := by
        rw [locations_length_stepAgent]
        exact hL
      refine ih _ (List.nodup_cons.1 hnd).2 ?_ (by rw [h1]; exact hst) h2
      rcases List.mem_cons.1 hmem with h | h
      · exact absurd h hij
      · exact h

/-- Claim C2, amended: after any complete step (from a store whose
entries are all in `{Community, Hospital, Home}`, with draws in `[0,1)`),
every agent's location is still one of `{Community, Hospital, Home}`, and
every agent that was Infected-Hospitalized when the step began ends the
step with location exactly Hospital.  (An agent that only transitions
into Infected-Hospitalized during the step keeps the location its own
handler assigned; Hospital is forced only by the next step's handler —
see the counterexample for the claim as stated.) -/
theorem step_location_invariant (f : Nat → ℚ) (P : Params) (s : Sim)
    (hf : validDraws f) (hv : locationsValid s) :
    locationsValid (step f P s)
    ∧ (∀ i, i < s.agents.length → i < s.locations.length →
        (getAgent s i).state = States.Infected_Hospitalized →
        locGet (step f P s) i = Hospital) := by
  constructor
  · exact locationsValid_stepAgents f P _ s hf hv
  · intro i hiA hiL hst
    exact stepAgents_hospitalized_loc f P i (List.range s.agents.length) s
      (List.nodup_range _) (List.mem_range.2 hiA) hst hiL

/-- Witness for the amended C2 at a concrete input: the lone hospitalized
agent sits at Hospital after a step. -/
theorem step_location_invariant_witness :
    locGet (step zeroDraws mainParams simH) 0 = Hospital :=
  (step_location_invariant zeroDraws mainParams simH
      (fun i => ⟨le_refl 0, by norm_num [zeroDraws]⟩)
      (by intro l hm; simp [simH] at hm; rw [hm]; exact Or.inl rfl)).2
    0 (by decide) (by decide) (by decide)

/-- Counterexample to C2 as stated: with sure hospitalization, the lone
Infected agent is Infected-Hospitalized at the end of the step, yet its
location is the one its own handler assigned (Community), not Hospital —
the claim's parenthetical about agents that transitioned into
Infected-Hospitalized during the same step is false on the code. -/
theorem step_location_invariant_counterexample :
    (getAgent (step zeroDraws hospParams simI) 0).state
        = States.Infected_Hospitalized
    ∧ locGet (step zeroDraws hospParams simI) 0 ≠ Hospital := by
  have hr : List.range simI.agents.length = [0] := by decide
  have hstep : step zeroDraws hospParams simI
      = stepAgent zeroDraws hospParams simI 0 := by
    rw [step, hr]
    rfl
  have hdisp : stepAgent zeroDraws hospParams simI 0
      = update_infected zeroDraws hospParams 0 simI := by
    have hst : (getAgent simI 0).state = States.Infected := by decide
    unfold stepAgent
    rw [hst]
  have h0 : roulette [hospParams.prob_hospitalization, hospParams.prob_recovery]
      (zeroDraws (simI.ctr + 1)) = 0 := by
    norm_num [roulette, hospParams, zeroDraws]
  rw [hstep, hdisp, update_infected_hosp_eq _ _ _ _ h0]
  constructor
  · rw [getAgent_change_state_self _ _ _ (by decide)]
  · rw [locGet]
    show (simI.locations.set 0
        (if zeroDraws simI.ctr < 1/2 then Community else Home)).getD 0 0 ≠ Hospital
    rw [if_pos (by norm_num [zeroDraws])]
    decide

end EpiModel
